import Mathlib

/-!
Shallow embedding of the `turing` Anchor program
(`src/anchor/programs/basic/src/lib.rs`), a custodial balance ledger for a
two-party wagering game, together with proofs about its operations.

Modelling conventions:
* `Pubkey` is `Nat`; identities and account addresses are compared for
  equality only, exactly as the program does.
* `u64` fields are `Nat` together with explicit bounds checks against
  `U64_MAX`, mirroring Rust's `checked_add` / `checked_sub`.
* Each instruction handler is a pure function returning
  `Except TxError …`.  On the chain, an instruction that returns an error
  (or panics) aborts the whole transaction and none of the account
  mutations or CPI transfers it performed are committed; the `Except`
  error therefore carries no state, and the ledger-level `stepKeep`
  function keeps the pre-state on error.
* The SPL token-transfer CPI is an external collaborator.  It is modelled
  by a `transferOk : Bool` oracle (plus, for transfers out of the game
  vault, the requirement that the vault actually holds the amount), and
  each handler reports the list of transfers it committed.
* Rust's `.unwrap()` on a failed checked operation is a panic, which
  aborts the transaction; it is modelled as the distinguished error
  `TxError.panicked`, different from every `CustomError` code.
-/

namespace Turing

/-- Identities and account addresses (Solana public keys), compared only
for equality by the program. -/
abbrev Pubkey := Nat

/-- Largest value of Rust's `u64`. -/
def U64_MAX : Nat := 2 ^ 64 - 1

/-- Rust `u64::checked_add`. -/
def checked_add (a b : Nat) : Option Nat :=
  if a + b ≤ U64_MAX then some (a + b) else none

/-- Rust `u64::checked_sub`. -/
def checked_sub (a b : Nat) : Option Nat :=
  if b ≤ a then some (a - b) else none

/-- The `Game` account: a PDA bump seed and the authority identity. -/
structure Game where
  bump : Nat
  authority : Pubkey
deriving Repr, DecidableEq

/-- The `UserAccount` account: owner identity and internal balance.
The source names the owner field `user`. -/
structure UserAccount where
  user : Pubkey
  balance : Nat
deriving Repr, DecidableEq

/-- The program's `CustomError` enum (`#[error_code]`), exactly the three
variants declared in the source. -/
inductive CustomError
  | InsufficientFunds
  | Unauthorized
  | ArithmeticError
deriving Repr, DecidableEq

/-- Every way a transaction built from one of the program's instructions
can fail: a program-defined `CustomError`, a Rust panic (`unwrap` on a
failed checked operation), framework/system errors during account
resolution (`init` target already in use, a named account missing,
aliased mutable accounts), or a failed token-transfer CPI. -/
inductive TxError
  | custom (e : CustomError)
  | panicked
  | accountInUse
  | accountNotFound
  | aliasedAccounts
  | transferFailed
deriving Repr, DecidableEq

/-- The token vaults an SPL transfer can name in this program. -/
inductive VaultRef
  | userVault
  | gameVault
  | adminVault
deriving Repr, DecidableEq

/-- One committed SPL token transfer performed by an instruction. -/
structure TransferCall where
  amount : Nat
  source : VaultRef
  dest : VaultRef
deriving Repr, DecidableEq

/-! ## Instruction handlers (record level)

Each function takes the deserialized accounts the instruction receives,
applies exactly the checks and mutations of the Rust handler (in source
order), and returns the updated accounts together with the list of
committed transfers, or the error that aborted the transaction. -/

/-- Handler of `deposit`: CPI-transfer `amount` from the user's token
account to the game's token account (signed by `user`), then
`balance.checked_add(amount).unwrap()`.  The accounts struct `Deposit`
places no constraint relating the signer to `user_account.user`. -/
def deposit (acct : UserAccount) (amount : Nat) (transferOk : Bool) :
    Except TxError (UserAccount × List TransferCall) :=
  if transferOk then
    match checked_add acct.balance amount with
    | some b => .ok ({ acct with balance := b },
        [⟨amount, .userVault, .gameVault⟩])
    | none => .error .panicked
  else .error .transferFailed

/-- Handler of `withdraw`: `require!(balance ≥ amount)` with
`InsufficientFunds`, then CPI-transfer `amount` from the game's token
account to the user's token account signed by the game PDA (seeds
`["game", bump]`), then `balance.checked_sub(amount).unwrap()`.
The accounts struct `Withdraw` has no `has_one` / `constraint` relating
the signer `user` to `user_account.user`: `caller` is unused by the
checks, exactly as in the source. -/
def withdraw (caller : Pubkey) (game : Game) (acct : UserAccount)
    (amount : Nat) (transferOk : Bool) :
    Except TxError (UserAccount × List TransferCall) :=
  if acct.balance < amount then .error (.custom .InsufficientFunds)
  else if transferOk then
    match checked_sub acct.balance amount with
    | some b => .ok ({ acct with balance := b },
        [⟨amount, .gameVault, .userVault⟩])
    | none => .error .panicked
  else .error .transferFailed

/-- The `if let Some(winner_account)` block of `attest_outcome`:
`balance.checked_add(net_stake).ok_or(ArithmeticError)`. -/
def creditWinner : Option UserAccount → Nat →
    Except TxError (Option UserAccount)
  | none, _ => .ok none
  | some w, net =>
    match checked_add w.balance net with
    | some b => .ok (some { w with balance := b })
    | none => .error (.custom .ArithmeticError)

/-- The `if let Some(loser_account)` block of `attest_outcome`:
`require!(balance ≥ stake)` with `InsufficientFunds`, then
`balance.checked_sub(stake).ok_or(ArithmeticError)`. -/
def debitLoser : Option UserAccount → Nat →
    Except TxError (Option UserAccount)
  | none, _ => .ok none
  | some l, stake =>
    if l.balance < stake then .error (.custom .InsufficientFunds)
    else
      match checked_sub l.balance stake with
      | some b => .ok (some { l with balance := b })
      | none => .error (.custom .ArithmeticError)

/-- The accounts received by `attest_outcome` (the `AttestOutcome`
struct, with the framework plumbing dropped): the `Game` PDA, the game's
operating `UserAccount`, and optional winner and loser accounts.  The
struct contains no token accounts. -/
structure AttestAccounts where
  game : Game
  game_user_account : UserAccount
  winner_account : Option UserAccount
  loser_account : Option UserAccount
deriving Repr, DecidableEq

/-- Handler of `attest_outcome` together with the `AttestOutcome` account
constraint `authority.key() == game.authority @ Unauthorized`; then
`game_fee = stake / 10`, `net_stake = stake - game_fee`, the winner
credit, the loser check-and-debit, and the fee credit to the game's
operating account, in source order.  The handler performs no CPI, hence
the transfer list is empty. -/
def attest_outcome (caller : Pubkey) (accs : AttestAccounts)
    (stake : Nat) : Except TxError (AttestAccounts × List TransferCall) :=
  if caller = accs.game.authority then
    let game_fee := stake / 10
    let net_stake := stake - game_fee
    match creditWinner accs.winner_account net_stake with
    | .error e => .error e
    | .ok w =>
      match debitLoser accs.loser_account stake with
      | .error e => .error e
      | .ok l =>
        match checked_add accs.game_user_account.balance game_fee with
        | some b =>
          .ok ({ accs with
                  game_user_account :=
                    { accs.game_user_account with balance := b },
                  winner_account := w,
                  loser_account := l }, [])
        | none => .error (.custom .ArithmeticError)
  else .error (.custom .Unauthorized)

/-- Handler of `admin_deposit`: CPI-transfer `amount` from the admin's
token account to the game's token account (signed by `admin`), then
`balance.checked_add(amount).unwrap()` on `game_user_account`.  The
accounts struct `AdminDeposit` contains no `Game` account and no
constraint on the signer `admin`: `caller` is unused by the checks. -/
def admin_deposit (caller : Pubkey) (game_user_account : UserAccount)
    (amount : Nat) (transferOk : Bool) :
    Except TxError (UserAccount × List TransferCall) :=
  if transferOk then
    match checked_add game_user_account.balance amount with
    | some b => .ok ({ game_user_account with balance := b },
        [⟨amount, .adminVault, .gameVault⟩])
    | none => .error .panicked
  else .error .transferFailed

/-- Handler of `admin_withdraw`: `require!(balance ≥ amount)` with
`InsufficientFunds`, CPI-transfer from the game's token account to the
admin's token account signed by the game PDA, then
`balance.checked_sub(amount).unwrap()`.  The accounts struct
`AdminWithdraw` has no constraint `admin.key() == game.authority`:
`caller` is unused by the checks. -/
def admin_withdraw (caller : Pubkey) (game : Game)
    (game_user_account : UserAccount) (amount : Nat)
    (transferOk : Bool) :
    Except TxError (UserAccount × List TransferCall) :=
  if game_user_account.balance < amount then
    .error (.custom .InsufficientFunds)
  else if transferOk then
    match checked_sub game_user_account.balance amount with
    | some b => .ok ({ game_user_account with balance := b },
        [⟨amount, .gameVault, .adminVault⟩])
    | none => .error .panicked
  else .error .transferFailed

/-! ## Ledger level

Accounts live on chain keyed by their own address.  `ChainState` holds
the (at most one) `Game` PDA, the `UserAccount` records keyed by address,
and the number of tokens custodied in the game's token vault — the net
of tokens moved in by `deposit` / `admin_deposit` and moved out by
`withdraw` / `admin_withdraw`.  `step` resolves the accounts an
instruction names (Anchor account validation), runs the handler, and on
success writes the updated records back and adjusts the vault by the
committed transfers; on error the transaction aborts and `stepKeep`
keeps the pre-state. -/

/-- Fixed address of the `Game` PDA (seeds `["game"]`); the game's own
`UserAccount.user` field is set to this key by `initialize`. -/
def gameKey : Pubkey := 0

/-- Look up the `UserAccount` stored at an address. -/
def lookupAcct : List (Pubkey × UserAccount) → Pubkey → Option UserAccount
  | [], _ => none
  | (k, v) :: rest, addr =>
    if k = addr then some v else lookupAcct rest addr

/-- Replace the `UserAccount` stored at an address (first match). -/
def updateAcct : List (Pubkey × UserAccount) → Pubkey → UserAccount →
    List (Pubkey × UserAccount)
  | [], _, _ => []
  | (k, v) :: rest, addr, a =>
    if k = addr then (k, a) :: rest else (k, v) :: updateAcct rest addr a

/-- Write back an optional account at an optional address (used for the
optional winner / loser slots of `attest_outcome`). -/
def writeOpt (l : List (Pubkey × UserAccount)) :
    Option Pubkey → Option UserAccount → List (Pubkey × UserAccount)
  | some addr, some a => updateAcct l addr a
  | some _, none => l
  | none, _ => l

/-- Resolve an optional account address, failing if a named account is
missing (Anchor account validation for an `Option<Account<…>>`). -/
def resolveAcct (l : List (Pubkey × UserAccount)) :
    Option Pubkey → Except TxError (Option UserAccount)
  | none => .ok none
  | some addr =>
    match lookupAcct l addr with
    | some a => .ok (some a)
    | none => .error .accountNotFound

/-- The three mutable `UserAccount` slots of one `attest_outcome` call
must be distinct records; the model rejects aliased accounts. -/
def distinctAccs (guAddr : Pubkey) (w l : Option Pubkey) : Bool :=
  (match w with | none => true | some a => a != guAddr) &&
  (match l with | none => true | some a => a != guAddr) &&
  (match w, l with | some a, some b => a != b | _, _ => true)

/-- Global on-chain state of the program. -/
structure ChainState where
  game : Option Game
  accounts : List (Pubkey × UserAccount)
  vault : Nat
deriving Repr, DecidableEq

/-- State before `initialize`: no records, empty vault. -/
def init0 : ChainState := { game := none, accounts := [], vault := 0 }

/-- Sum of all `UserAccount` balances held in the ledger. -/
def sumBal (l : List (Pubkey × UserAccount)) : Nat :=
  (l.map (fun p => p.2.balance)).sum

/-- One instruction invocation, with the caller identity, the addresses
of the accounts it names, its arguments, and the CPI oracle where the
instruction performs a token transfer. -/
inductive Op
  | initializeGame (bump : Nat) (authority : Pubkey) (guAddr : Pubkey)
  | createUserAccount (addr : Pubkey) (user : Pubkey)
  | deposit (addr : Pubkey) (amount : Nat) (transferOk : Bool)
  | withdraw (caller : Pubkey) (addr : Pubkey) (amount : Nat)
      (transferOk : Bool)
  | attestOutcome (caller : Pubkey) (guAddr : Pubkey) (stake : Nat)
      (winnerAddr loserAddr : Option Pubkey)
  | adminDeposit (caller : Pubkey) (guAddr : Pubkey) (amount : Nat)
      (transferOk : Bool)
  | adminWithdraw (caller : Pubkey) (guAddr : Pubkey) (amount : Nat)
      (transferOk : Bool)
deriving Repr, DecidableEq

/-- Apply one instruction as a whole transaction: resolve accounts, run
the handler, commit writebacks and vault movement on success.  A
transfer out of the game vault additionally requires the vault to hold
the amount (the SPL transfer itself fails otherwise), folded into the
handler's `transferOk` parameter. -/
def step (s : ChainState) : Op → Except TxError ChainState
  | .initializeGame bump authority guAddr =>
    match s.game with
    | some _ => .error .accountInUse
    | none =>
      match lookupAcct s.accounts guAddr with
      | some _ => .error .accountInUse
      | none =>
        .ok { s with
          game := some { bump := bump, authority := authority },
          accounts := (guAddr, { user := gameKey, balance := 0 })
            :: s.accounts }
  | .createUserAccount addr user =>
    match lookupAcct s.accounts addr with
    | some _ => .error .accountInUse
    | none =>
      .ok { s with
        accounts := (addr, { user := user, balance := 0 }) :: s.accounts }
  | .deposit addr amount transferOk =>
    match lookupAcct s.accounts addr with
    | none => .error .accountNotFound
    | some a =>
      match deposit a amount transferOk with
      | .error e => .error e
      | .ok (a2, _) =>
        .ok { s with accounts := updateAcct s.accounts addr a2,
                     vault := s.vault + amount }
  | .withdraw caller addr amount transferOk =>
    match s.game with
    | none => .error .accountNotFound
    | some g =>
      match lookupAcct s.accounts addr with
      | none => .error .accountNotFound
      | some a =>
        match withdraw caller g a amount
            (transferOk && decide (amount ≤ s.vault)) with
        | .error e => .error e
        | .ok (a2, _) =>
          .ok { s with accounts := updateAcct s.accounts addr a2,
                       vault := s.vault - amount }
  | .attestOutcome caller guAddr stake winnerAddr loserAddr =>
    match s.game with
    | none => .error .accountNotFound
    | some g =>
      match lookupAcct s.accounts guAddr with
      | none => .error .accountNotFound
      | some gu =>
        match resolveAcct s.accounts winnerAddr with
        | .error e => .error e
        | .ok w =>
          match resolveAcct s.accounts loserAddr with
          | .error e => .error e
          | .ok l =>
            if distinctAccs guAddr winnerAddr loserAddr then
              match attest_outcome caller ⟨g, gu, w, l⟩ stake with
              | .error e => .error e
              | .ok (res, _) =>
                let acc1 := updateAcct s.accounts guAddr
                  res.game_user_account
                let acc2 := writeOpt acc1 winnerAddr res.winner_account
                let acc3 := writeOpt acc2 loserAddr res.loser_account
                .ok { s with accounts := acc3 }
            else .error .aliasedAccounts
  | .adminDeposit caller guAddr amount transferOk =>
    match lookupAcct s.accounts guAddr with
    | none => .error .accountNotFound
    | some a =>
      match admin_deposit caller a amount transferOk with
      | .error e => .error e
      | .ok (a2, _) =>
        .ok { s with accounts := updateAcct s.accounts guAddr a2,
                     vault := s.vault + amount }
  | .adminWithdraw caller guAddr amount transferOk =>
    match s.game with
    | none => .error .accountNotFound
    | some g =>
      match lookupAcct s.accounts guAddr with
      | none => .error .accountNotFound
      | some a =>
        match admin_withdraw caller g a amount
            (transferOk && decide (amount ≤ s.vault)) with
        | .error e => .error e
        | .ok (a2, _) =>
          .ok { s with accounts := updateAcct s.accounts guAddr a2,
                       vault := s.vault - amount }

/-- Transaction semantics: a failed instruction leaves the chain state
unchanged. -/
def stepKeep (s : ChainState) (op : Op) : ChainState :=
  match step s op with
  | .ok s2 => s2
  | .error _ => s

/-- Run a sequence of instructions, failed ones leaving no trace. -/
def runKeep (s : ChainState) (ops : List Op) : ChainState :=
  ops.foldl stepKeep s

/-- Does the instruction name a loser account when it is an
`attest_outcome`?  (Every other instruction trivially qualifies.) -/
def hasLoser : Op → Bool
  | .attestOutcome _ _ _ _ loserAddr => loserAddr.isSome
  | _ => true

/-! ## Basic ledger lemmas -/

theorem lookupAcct_le_sumBal {l : List (Pubkey × UserAccount)}
    {addr : Pubkey} {a : UserAccount} (h : lookupAcct l addr = some a) :
    a.balance ≤ sumBal l := by
  induction l with
  | nil => simp [lookupAcct] at h
  | cons p rest ih =>
    obtain ⟨k, v⟩ := p
    simp only [lookupAcct] at h
    by_cases hk : k = addr
    · simp [hk] at h
      simp [sumBal, ← h]
    · simp [hk] at h
      have := ih h
      simp [sumBal] at this ⊢
      omega

theorem sumBal_updateAcct {l : List (Pubkey × UserAccount)}
    {addr : Pubkey} {a : UserAccount} (b : UserAccount)
    (h : lookupAcct l addr = some a) :
    sumBal (updateAcct l addr b) + a.balance = sumBal l + b.balance := by
  induction l with
  | nil => simp [lookupAcct] at h
  | cons p rest ih =>
    obtain ⟨k, v⟩ := p
    simp only [lookupAcct] at h
    by_cases hk : k = addr
    · simp [hk] at h
      simp [updateAcct, hk, sumBal, ← h]
      omega
    · simp [hk] at h
      have := ih h
      simp [updateAcct, hk, sumBal] at this ⊢
      omega

theorem lookupAcct_updateAcct_ne {l : List (Pubkey × UserAccount)}
    {addr addr2 : Pubkey} (b : UserAccount) (h : addr2 ≠ addr) :
    lookupAcct (updateAcct l addr b) addr2 = lookupAcct l addr2 := by
  induction l with
  | nil => simp [updateAcct]
  | cons p rest ih =>
    obtain ⟨k, v⟩ := p
    by_cases hk : k = addr
    · subst hk
      simp [updateAcct, lookupAcct, Ne.symm h]
    · simp [updateAcct, hk, lookupAcct, ih]

theorem lookupAcct_cons_ne {l : List (Pubkey × UserAccount)}
    {addr addr2 : Pubkey} (a : UserAccount) (h : addr2 ≠ addr) :
    lookupAcct ((addr, a) :: l) addr2 = lookupAcct l addr2 := by
  simp [lookupAcct, Ne.symm h]

/-! ## Checked-arithmetic lemmas -/

theorem checked_add_some {a b c : Nat} (h : checked_add a b = some c) :
    a + b ≤ U64_MAX ∧ c = a + b := by
  simp only [checked_add] at h
  split at h
  · rename_i hle
    simp at h
    exact ⟨hle, h.symm⟩
  · simp at h

theorem checked_sub_some {a b c : Nat} (h : checked_sub a b = some c) :
    b ≤ a ∧ c = a - b := by
  simp only [checked_sub] at h
  split at h
  · rename_i hle
    simp at h
    exact ⟨hle, h.symm⟩
  · simp at h

/-! ## Handler inversion lemmas -/

theorem deposit_ok {acct : UserAccount} {amount : Nat} {tOk : Bool}
    {acct2 : UserAccount} {ts : List TransferCall}
    (h : deposit acct amount tOk = .ok (acct2, ts)) :
    tOk = true ∧ acct2.user = acct.user ∧
      acct2.balance = acct.balance + amount ∧
      acct.balance + amount ≤ U64_MAX ∧
      ts = [⟨amount, .userVault, .gameVault⟩] := by
  cases tOk
  · simp [deposit] at h
  · cases hc : checked_add acct.balance amount with
    | none => simp [deposit, hc] at h
    | some b =>
      obtain ⟨hle, hb⟩ := checked_add_some hc
      simp [deposit, hc] at h
      obtain ⟨h1, h2⟩ := h
      subst hb
      simp [← h1, ← h2, hle]

theorem withdraw_ok {caller : Pubkey} {g : Game} {acct : UserAccount}
    {amount : Nat} {tOk : Bool} {acct2 : UserAccount}
    {ts : List TransferCall}
    (h : withdraw caller g acct amount tOk = .ok (acct2, ts)) :
    tOk = true ∧ amount ≤ acct.balance ∧ acct2.user = acct.user ∧
      acct2.balance = acct.balance - amount ∧
      ts = [⟨amount, .gameVault, .userVault⟩] := by
  simp only [withdraw] at h
  split at h
  · simp at h
  · rename_i hge
    simp at hge
    cases tOk
    · simp at h
    · cases hc : checked_sub acct.balance amount with
      | none => simp [hc] at h
      | some b =>
        obtain ⟨_, hb⟩ := checked_sub_some hc
        simp [hc] at h
        obtain ⟨h1, h2⟩ := h
        subst hb
        simp [← h1, ← h2, hge]

theorem admin_deposit_ok {caller : Pubkey} {acct : UserAccount}
    {amount : Nat} {tOk : Bool} {acct2 : UserAccount}
    {ts : List TransferCall}
    (h : admin_deposit caller acct amount tOk = .ok (acct2, ts)) :
    tOk = true ∧ acct2.user = acct.user ∧
      acct2.balance = acct.balance + amount ∧
      acct.balance + amount ≤ U64_MAX ∧
      ts = [⟨amount, .adminVault, .gameVault⟩] := by
  cases tOk
  · simp [admin_deposit] at h
  · cases hc : checked_add acct.balance amount with
    | none => simp [admin_deposit, hc] at h
    | some b =>
      obtain ⟨hle, hb⟩ := checked_add_some hc
      simp [admin_deposit, hc] at h
      obtain ⟨h1, h2⟩ := h
      subst hb
      simp [← h1, ← h2, hle]

theorem admin_withdraw_ok {caller : Pubkey} {g : Game}
    {acct : UserAccount} {amount : Nat} {tOk : Bool}
    {acct2 : UserAccount} {ts : List TransferCall}
    (h : admin_withdraw caller g acct amount tOk = .ok (acct2, ts)) :
    tOk = true ∧ amount ≤ acct.balance ∧ acct2.user = acct.user ∧
      acct2.balance = acct.balance - amount ∧
      ts = [⟨amount, .gameVault, .adminVault⟩] := by
  simp only [admin_withdraw] at h
  split at h
  · simp at h
  · rename_i hge
    simp at hge
    cases tOk
    · simp at h
    · cases hc : checked_sub acct.balance amount with
      | none => simp [hc] at h
      | some b =>
        obtain ⟨_, hb⟩ := checked_sub_some hc
        simp [hc] at h
        obtain ⟨h1, h2⟩ := h
        subst hb
        simp [← h1, ← h2, hge]

theorem creditWinner_ok {w w2 : Option UserAccount} {net : Nat}
    (h : creditWinner w net = .ok w2) :
    (w = none ∧ w2 = none) ∨
      ∃ a, w = some a ∧ a.balance + net ≤ U64_MAX ∧
        w2 = some { user := a.user, balance := a.balance + net } := by
  cases w with
  | none => simp [creditWinner] at h; simp [h]
  | some a =>
    right
    refine ⟨a, rfl, ?_⟩
    cases hc : checked_add a.balance net with
    | none => simp [creditWinner, hc] at h
    | some b =>
      obtain ⟨hle, hb⟩ := checked_add_some hc
      simp [creditWinner, hc] at h
      subst hb
      exact ⟨hle, h.symm⟩

theorem debitLoser_ok {l l2 : Option UserAccount} {stake : Nat}
    (h : debitLoser l stake = .ok l2) :
    (l = none ∧ l2 = none) ∨
      ∃ a, l = some a ∧ stake ≤ a.balance ∧
        l2 = some { user := a.user, balance := a.balance - stake } := by
  cases l with
  | none => simp [debitLoser] at h; simp [h]
  | some a =>
    right
    refine ⟨a, rfl, ?_⟩
    simp only [debitLoser] at h
    split at h
    · simp at h
    · rename_i hlt
      simp at hlt
      cases hc : checked_sub a.balance stake with
      | none => simp [hc] at h
      | some b =>
        obtain ⟨_, hb⟩ := checked_sub_some hc
        simp [hc] at h
        subst hb
        exact ⟨hlt, h.symm⟩

theorem attest_outcome_ok {caller : Pubkey} {accs : AttestAccounts}
    {stake : Nat} {res : AttestAccounts} {ts : List TransferCall}
    (h : attest_outcome caller accs stake = .ok (res, ts)) :
    ts = [] ∧ caller = accs.game.authority ∧ res.game = accs.game ∧
      accs.game_user_account.balance + stake / 10 ≤ U64_MAX ∧
      res.game_user_account =
        { user := accs.game_user_account.user,
          balance := accs.game_user_account.balance + stake / 10 } ∧
      creditWinner accs.winner_account (stake - stake / 10) =
        .ok res.winner_account ∧
      debitLoser accs.loser_account stake = .ok res.loser_account := by
  simp only [attest_outcome] at h
  split at h
  · rename_i hauth
    cases hw : creditWinner accs.winner_account (stake - stake / 10) with
    | error e => rw [hw] at h; simp at h
    | ok w =>
      rw [hw] at h
      cases hl : debitLoser accs.loser_account stake with
      | error e => rw [hl] at h; simp at h
      | ok l =>
        rw [hl] at h
        cases hc : checked_add accs.game_user_account.balance
            (stake / 10) with
        | none => rw [hc] at h; simp at h
        | some b =>
          obtain ⟨hle, hb⟩ := checked_add_some hc
          rw [hc] at h
          simp at h
          obtain ⟨h1, h2⟩ := h
          subst hb
          simp [← h1, h2, hauth, hle]
  · simp at h

theorem resolveAcct_none_ok {l : List (Pubkey × UserAccount)}
    {w : Option UserAccount} (h : resolveAcct l none = .ok w) :
    w = none := by
  simp [resolveAcct] at h
  exact h.symm

theorem resolveAcct_some_ok {l : List (Pubkey × UserAccount)}
    {addr : Pubkey} {w : Option UserAccount}
    (h : resolveAcct l (some addr) = .ok w) :
    ∃ a, lookupAcct l addr = some a ∧ w = some a := by
  simp only [resolveAcct] at h
  cases hl : lookupAcct l addr with
  | none => rw [hl] at h; simp at h
  | some a =>
    rw [hl] at h
    simp at h
    exact ⟨a, rfl, h.symm⟩

/-! ## The vault-backing invariant -/

/-- The components of a successful `distinctAccs` check. -/
theorem distinctAccs_true {guAddr : Pubkey} {w l : Option Pubkey}
    (h : distinctAccs guAddr w l = true) :
    (∀ a, w = some a → a ≠ guAddr) ∧ (∀ a, l = some a → a ≠ guAddr) ∧
      (∀ a b, w = some a → l = some b → a ≠ b) := by
  simp only [distinctAccs, Bool.and_eq_true] at h
  obtain ⟨⟨hw, hl⟩, hwl⟩ := h
  refine ⟨?_, ?_, ?_⟩
  · intro a ha; subst ha; simpa using hw
  · intro a ha; subst ha; simpa using hl
  · intro a b ha hb; subst ha; subst hb; simpa using hwl

/-- Single-step preservation of the vault-backing invariant, for every
instruction whose `attest_outcome` (if that is what it is) names a loser
account: if the sum of all `UserAccount` balances is at most the vault's
custodied amount before the instruction, it still is afterwards. -/
theorem step_preserves_inv {s s2 : ChainState} {op : Op}
    (hinv : sumBal s.accounts ≤ s.vault)
    (hloser : hasLoser op = true)
    (hstep : step s op = .ok s2) :
    sumBal s2.accounts ≤ s2.vault := by
  cases op with
  | initializeGame bump authority guAddr =>
    simp only [step] at hstep
    split at hstep
    · simp at hstep
    · split at hstep
      · simp at hstep
      · simp at hstep
        subst hstep
        simpa [sumBal] using hinv
  | createUserAccount addr user =>
    simp only [step] at hstep
    split at hstep
    · simp at hstep
    · simp at hstep
      subst hstep
      simpa [sumBal] using hinv
  | deposit addr amount tOk =>
    simp only [step] at hstep
    split at hstep
    · simp at hstep
    · rename_i a hlook
      split at hstep
      · simp at hstep
      · rename_i a2 ts hdep
        simp at hstep
        subst hstep
        obtain ⟨-, -, hbal, -, -⟩ := deposit_ok hdep
        have hsum := sumBal_updateAcct a2 hlook
        dsimp only
        omega
  | withdraw caller addr amount tOk =>
    simp only [step] at hstep
    split at hstep
    · simp at hstep
    · rename_i g hgame
      split at hstep
      · simp at hstep
      · rename_i a hlook
        split at hstep
        · simp at hstep
        · rename_i a2 ts hwd
          simp at hstep
          subst hstep
          obtain ⟨htr, hge, -, hbal, -⟩ := withdraw_ok hwd
          have hv : amount ≤ s.vault := by
            simp [Bool.and_eq_true] at htr
            exact htr.2
          have hle := lookupAcct_le_sumBal hlook
          have hsum := sumBal_updateAcct a2 hlook
          dsimp only
          omega
  | adminDeposit caller guAddr amount tOk =>
    simp only [step] at hstep
    split at hstep
    · simp at hstep
    · rename_i a hlook
      split at hstep
      · simp at hstep
      · rename_i a2 ts hdep
        simp at hstep
        subst hstep
        obtain ⟨-, -, hbal, -, -⟩ := admin_deposit_ok hdep
        have hsum := sumBal_updateAcct a2 hlook
        dsimp only
        omega
  | adminWithdraw caller guAddr amount tOk =>
    simp only [step] at hstep
    split at hstep
    · simp at hstep
    · rename_i g hgame
      split at hstep
      · simp at hstep
      · rename_i a hlook
        split at hstep
        · simp at hstep
        · rename_i a2 ts hwd
          simp at hstep
          subst hstep
          obtain ⟨htr, hge, -, hbal, -⟩ := admin_withdraw_ok hwd
          have hv : amount ≤ s.vault := by
            simp [Bool.and_eq_true] at htr
            exact htr.2
          have hle := lookupAcct_le_sumBal hlook
          have hsum := sumBal_updateAcct a2 hlook
          dsimp only
          omega
  | attestOutcome caller guAddr stake winnerAddr loserAddr =>
    cases loserAddr with
    | none => simp [hasLoser] at hloser
    | some la =>
      simp only [step] at hstep
      split at hstep
      · simp at hstep
      · rename_i g hgame
        split at hstep
        · simp at hstep
        · rename_i gu hgu
          split at hstep
          · simp at hstep
          · rename_i w hresw
            split at hstep
            · simp at hstep
            · rename_i l hresl
              split at hstep
              · rename_i hd
                split at hstep
                · simp at hstep
                · rename_i res ts hat
                  simp at hstep
                  subst hstep
                  dsimp only
                  obtain ⟨hne_w, hne_l, hne_wl⟩ := distinctAccs_true hd
                  obtain ⟨-, -, -, -, hgu2, hcw, hdl⟩ :=
                    attest_outcome_ok hat
                  dsimp only at hgu2 hcw hdl
                  obtain ⟨lacct, hllook, hleq⟩ := resolveAcct_some_ok hresl
                  subst hleq
                  rcases debitLoser_ok hdl with ⟨hbad, -⟩ |
                    ⟨lb, hlb, hstk, hres_l⟩
                  · simp at hbad
                  · replace hlb := Option.some.inj hlb
                    subst hlb
                    have hfee : stake / 10 ≤ stake := Nat.div_le_self _ _
                    have hsum1 := sumBal_updateAcct
                      { user := gu.user,
                        balance := gu.balance + stake / 10 } hgu
                    dsimp only at hsum1
                    cases winnerAddr with
                    | none =>
                      have hw := resolveAcct_none_ok hresw
                      subst hw
                      rcases creditWinner_ok hcw with ⟨-, hres_w⟩ |
                        ⟨a, ha, -, -⟩
                      · -- no winner: fee in, stake out
                        rw [hgu2, hres_w, hres_l]
                        simp only [writeOpt]
                        have hlook1 : lookupAcct
                            (updateAcct s.accounts guAddr
                              { user := gu.user,
                                balance := gu.balance + stake / 10 }) la =
                            some lacct := by
                          rw [lookupAcct_updateAcct_ne _ (hne_l la rfl)]
                          exact hllook
                        have hsum3 := sumBal_updateAcct
                          { user := lacct.user,
                            balance := lacct.balance - stake } hlook1
                        dsimp only at hsum3
                        omega
                      · simp at ha
                    | some waddr =>
                      obtain ⟨wacct, hwlook, hweq⟩ :=
                        resolveAcct_some_ok hresw
                      subst hweq
                      rcases creditWinner_ok hcw with ⟨hbad, -⟩ |
                        ⟨wb, hwb, hwle, hres_w⟩
                      · simp at hbad
                      · replace hwb := Option.some.inj hwb
                        subst hwb
                        rw [hgu2, hres_w, hres_l]
                        simp only [writeOpt]
                        have hwne : waddr ≠ guAddr := hne_w waddr rfl
                        have hlne : la ≠ guAddr := hne_l la rfl
                        have hwlne : waddr ≠ la := hne_wl waddr la rfl rfl
                        have hlookw : lookupAcct
                            (updateAcct s.accounts guAddr
                              { user := gu.user,
                                balance := gu.balance + stake / 10 })
                            waddr = some wacct := by
                          rw [lookupAcct_updateAcct_ne _ hwne]
                          exact hwlook
                        have hsum2 := sumBal_updateAcct
                          { user := wacct.user,
                            balance :=
                              wacct.balance + (stake - stake / 10) }
                          hlookw
                        have hlookl : lookupAcct
                            (updateAcct
                              (updateAcct s.accounts guAddr
                                { user := gu.user,
                                  balance := gu.balance + stake / 10 })
                              waddr
                              { user := wacct.user,
                                balance :=
                                  wacct.balance + (stake - stake / 10) })
                            la = some lacct := by
                          rw [lookupAcct_updateAcct_ne _ (Ne.symm hwlne)]
                          rw [lookupAcct_updateAcct_ne _ hlne]
                          exact hllook
                        have hsum3 := sumBal_updateAcct
                          { user := lacct.user,
                            balance := lacct.balance - stake } hlookl
                        dsimp only at hsum2 hsum3
                        omega
              · simp at hstep

/-- Preservation of the vault-backing invariant by a whole transaction
(`stepKeep`), failed instructions included. -/
theorem stepKeep_preserves_inv {s : ChainState} {op : Op}
    (hinv : sumBal s.accounts ≤ s.vault)
    (hloser : hasLoser op = true) :
    sumBal (stepKeep s op).accounts ≤ (stepKeep s op).vault := by
  unfold stepKeep
  cases hstep : step s op with
  | ok s2 => exact step_preserves_inv hinv hloser hstep
  | error e => exact hinv

/-! ## Claim C1 -/

/-- C1 is false on the code: the concrete sequence
`initialize(bump=1, authority=7, game account at address 5)` followed by
`attest_outcome(caller=7, stake=10, no winner, no loser)` consists of
two successful operations starting from `initialize`, yet afterwards the
sum of all `UserAccount` balances (1, the fee minted to the game's
operating account) exceeds the vault's custodied amount (0: no token was
ever deposited).  `attest_outcome` with no loser present does not
preserve the claimed invariant. -/
theorem c1_vault_backing_counterexample :
    step init0 (.initializeGame 1 7 5) =
      .ok { game := some { bump := 1, authority := 7 },
            accounts := [(5, { user := gameKey, balance := 0 })],
            vault := 0 } ∧
    step { game := some { bump := 1, authority := 7 },
           accounts := [(5, { user := gameKey, balance := 0 })],
           vault := 0 }
        (.attestOutcome 7 5 10 none none) =
      .ok { game := some { bump := 1, authority := 7 },
            accounts := [(5, { user := gameKey, balance := 1 })],
            vault := 0 } ∧
    ¬ sumBal [(5, { user := gameKey, balance := 1 })] ≤ 0 :=
  ⟨rfl, rfl, by decide⟩

/-- C1 (amended): for every sequence of operations in which every
`attest_outcome` call names a loser account, the sum of all
`UserAccount` balances never exceeds the vault's custodied token amount
(tokens moved in by deposit / admin-deposit minus tokens moved out by
withdraw / admin-withdraw).  All operations other than `attest_outcome`
preserve this invariant unconditionally; `attest_outcome` preserves it
when a loser account is present, but an `attest_outcome` without a loser
can break it (see the counterexample). -/
theorem c1_vault_backing_amended (s : ChainState) (ops : List Op)
    (hinv : sumBal s.accounts ≤ s.vault)
    (hops : ∀ op ∈ ops, hasLoser op = true) :
    sumBal (runKeep s ops).accounts ≤ (runKeep s ops).vault := by
  induction ops generalizing s with
  | nil => simpa [runKeep] using hinv
  | cons op rest ih =>
    have h1 : hasLoser op = true := hops op (by simp)
    have h2 : ∀ o ∈ rest, hasLoser o = true := by
      intro o ho
      exact hops o (by simp [ho])
    simpa [runKeep] using
      ih (stepKeep s op) (stepKeep_preserves_inv hinv h1) h2

/-- Witness for C1 (amended) on a concrete run: initialize, register a
user at address 6, deposit 100, then settle a stake of 50 with the user
as loser and no winner; the invariant holds throughout. -/
theorem c1_vault_backing_amended_witness :
    sumBal init0.accounts ≤ init0.vault ∧
    (∀ op ∈ [Op.initializeGame 1 7 5, Op.createUserAccount 6 2,
        Op.deposit 6 100 true, Op.attestOutcome 7 5 50 none (some 6)],
      hasLoser op = true) ∧
    sumBal (runKeep init0 [Op.initializeGame 1 7 5,
        Op.createUserAccount 6 2, Op.deposit 6 100 true,
        Op.attestOutcome 7 5 50 none (some 6)]).accounts ≤
      (runKeep init0 [Op.initializeGame 1 7 5, Op.createUserAccount 6 2,
        Op.deposit 6 100 true,
        Op.attestOutcome 7 5 50 none (some 6)]).vault :=
  ⟨by decide, by decide,
    c1_vault_backing_amended init0 _ (by decide) (by decide)⟩

/-! ## Claim C2 -/

/-- C2 is violated by the code (code bug): the `Withdraw` accounts
struct has no `has_one` or `constraint` relating the signer `user` to
`user_account.user`, so a withdraw succeeds even when the caller differs
from the owner of the debited account.  Concretely, caller 1 withdraws
50 from the account owned by identity 2 — the operation succeeds and
moves tokens out of the game vault. -/
theorem c2_withdraw_owner_unchecked :
    withdraw 1 { bump := 42, authority := 9 }
        { user := 2, balance := 100 } 50 true =
      .ok ({ user := 2, balance := 50 },
        [{ amount := 50, source := .gameVault, dest := .userVault }]) ∧
    (1 : Pubkey) ≠ 2 :=
  ⟨rfl, by decide⟩

/-! ## Claim C3 -/

/-- C3 is violated by the code (code bug): neither `AdminDeposit` nor
`AdminWithdraw` checks the caller against `Game.authority`
(`AdminDeposit` does not even reference the `Game` account), so a caller
different from the stored authority can move funds into and out of the
game's operating balance.  Concretely, caller 5 ≠ authority 7 succeeds
at both operations. -/
theorem c3_admin_authority_unchecked :
    admin_deposit 5 { user := gameKey, balance := 0 } 40 true =
      .ok ({ user := gameKey, balance := 40 },
        [{ amount := 40, source := .adminVault, dest := .gameVault }]) ∧
    admin_withdraw 5 { bump := 1, authority := 7 }
        { user := gameKey, balance := 40 } 40 true =
      .ok ({ user := gameKey, balance := 0 },
        [{ amount := 40, source := .gameVault, dest := .adminVault }]) ∧
    (5 : Pubkey) ≠ 7 :=
  ⟨rfl, rfl, by decide⟩

/-! ## Claim C4 -/

/-- C4 is false as stated: when a winner account is present whose
balance plus the net stake overflows `u64`, the winner credit (which the
handler attempts before the loser's balance check) fails first, so the
call aborts with `ArithmeticError` rather than `InsufficientFunds`, even
though the loser's balance (5) is below the stake (10). -/
theorem c4_attest_insufficient_counterexample :
    attest_outcome 7
      { game := { bump := 1, authority := 7 },
        game_user_account := { user := gameKey, balance := 0 },
        winner_account := some { user := 2, balance := U64_MAX },
        loser_account := some { user := 3, balance := 5 } } 10 =
      .error (.custom .ArithmeticError) ∧
    (5 : Nat) < 10 ∧
    TxError.custom .ArithmeticError ≠ .custom .InsufficientFunds :=
  ⟨rfl, by decide, by decide⟩

/-- C4 (amended): an `attest_outcome` call whose loser account holds
less than the stake fails and changes no balances; the reported error is
`InsufficientFunds` provided the caller is the game authority and the
winner credit (attempted first by the handler) does not overflow —
otherwise the call still fails and changes nothing, but with
`Unauthorized` or `ArithmeticError` respectively.  Stated at the ledger
level: the step reports `InsufficientFunds` and the whole transaction
leaves the chain state — winner, loser and game operating balances
included — exactly as before. -/
theorem c4_attest_insufficient_amended (s : ChainState)
    (caller guAddr la stake : Nat) (winnerAddr : Option Pubkey)
    (g : Game) (gu lacct : UserAccount) (w : Option UserAccount)
    (hgame : s.game = some g)
    (hauth : caller = g.authority)
    (hgu : lookupAcct s.accounts guAddr = some gu)
    (hw : resolveAcct s.accounts winnerAddr = .ok w)
    (hl : lookupAcct s.accounts la = some lacct)
    (hd : distinctAccs guAddr winnerAddr (some la) = true)
    (hlow : lacct.balance < stake)
    (hnoov : ∀ a, w = some a →
      a.balance + (stake - stake / 10) ≤ U64_MAX) :
    step s (.attestOutcome caller guAddr stake winnerAddr (some la)) =
      .error (.custom .InsufficientFunds) ∧
    stepKeep s (.attestOutcome caller guAddr stake winnerAddr (some la))
      = s := by
  have hstep : step s
      (.attestOutcome caller guAddr stake winnerAddr (some la)) =
      .error (.custom .InsufficientFunds) := by
    have hres : resolveAcct s.accounts (some la) = .ok (some lacct) := by
      simp [resolveAcct, hl]
    have hat : attest_outcome caller
        { game := g, game_user_account := gu, winner_account := w,
          loser_account := some lacct } stake =
        .error (.custom .InsufficientFunds) := by
      cases w with
      | none =>
        simp [attest_outcome, hauth, creditWinner, debitLoser, hlow]
      | some a =>
        have hok := hnoov a rfl
        simp [attest_outcome, hauth, creditWinner, checked_add, hok,
          debitLoser, hlow]
    simp [step, hgame, hgu, hw, hres, hd, hat]
  exact ⟨hstep, by simp [stepKeep, hstep]⟩

/-- Witness for C4 (amended): a concrete ledger in which the loser at
address 6 holds 3 < stake 10; the call fails with `InsufficientFunds`
and the state is unchanged. -/
theorem c4_attest_insufficient_amended_witness :
    step { game := some { bump := 1, authority := 7 },
           accounts := [(5, { user := gameKey, balance := 0 }),
                        (6, { user := 2, balance := 3 })],
           vault := 3 }
        (.attestOutcome 7 5 10 none (some 6)) =
      .error (.custom .InsufficientFunds) ∧
    stepKeep { game := some { bump := 1, authority := 7 },
               accounts := [(5, { user := gameKey, balance := 0 }),
                            (6, { user := 2, balance := 3 })],
               vault := 3 }
        (.attestOutcome 7 5 10 none (some 6)) =
      { game := some { bump := 1, authority := 7 },
        accounts := [(5, { user := gameKey, balance := 0 }),
                     (6, { user := 2, balance := 3 })],
        vault := 3 } :=
  c4_attest_insufficient_amended _ 7 5 6 10 none
    { bump := 1, authority := 7 } { user := gameKey, balance := 0 }
    { user := 2, balance := 3 } none rfl rfl rfl rfl rfl (by decide)
    (by decide) (fun a ha => by simp at ha)

/-! ## Claim C5 -/

/-- C5 (confirmed): every successful `attest_outcome` with stake `s` and
both winner and loser present credits the winner exactly
`net = s - s / 10` (integer floor fee `s / 10`), debits the loser
exactly `s`, credits the game operating account exactly `s / 10`, and
winner gain plus game gain equals `s` — value is conserved across the
round. -/
theorem c5_attest_conservation (caller : Pubkey) (g : Game)
    (gu w l : UserAccount) (stake : Nat) (res : AttestAccounts)
    (ts : List TransferCall)
    (h : attest_outcome caller
      { game := g, game_user_account := gu, winner_account := some w,
        loser_account := some l } stake = .ok (res, ts)) :
    res.winner_account =
      some { user := w.user,
             balance := w.balance + (stake - stake / 10) } ∧
    res.loser_account =
      some { user := l.user, balance := l.balance - stake } ∧
    res.game_user_account.balance = gu.balance + stake / 10 ∧
    stake ≤ l.balance ∧
    (w.balance + (stake - stake / 10) - w.balance) +
      (gu.balance + stake / 10 - gu.balance) = stake := by
  obtain ⟨-, -, -, -, hgu2, hcw, hdl⟩ := attest_outcome_ok h
  dsimp only at hgu2 hcw hdl
  rcases creditWinner_ok hcw with ⟨hbad, -⟩ | ⟨a, ha, -, hres_w⟩
  · simp at hbad
  · replace ha := Option.some.inj ha
    subst ha
    rcases debitLoser_ok hdl with ⟨hbad, -⟩ | ⟨b, hb, hstk, hres_l⟩
    · simp at hbad
    · replace hb := Option.some.inj hb
      subst hb
      have hfee : stake / 10 ≤ stake := Nat.div_le_self _ _
      exact ⟨hres_w, hres_l, by rw [hgu2], hstk, by omega⟩

/-- Witness for C5 at a concrete successful settlement: stake 10,
fee 1, net 9; winner 5 → 14, loser 10 → 0, game account 0 → 1, and
winner gain (9) plus game gain (1) equals the stake (10). -/
theorem c5_attest_conservation_witness :
    attest_outcome 7
      { game := { bump := 1, authority := 7 },
        game_user_account := { user := gameKey, balance := 0 },
        winner_account := some { user := 2, balance := 5 },
        loser_account := some { user := 3, balance := 10 } } 10 =
      .ok ({ game := { bump := 1, authority := 7 },
             game_user_account := { user := gameKey, balance := 1 },
             winner_account := some { user := 2, balance := 14 },
             loser_account := some { user := 3, balance := 0 } },
        ([] : List TransferCall)) ∧
    (5 + (10 - 10 / 10) - 5) + (0 + 10 / 10 - 0) = 10 :=
  ⟨rfl,
    (c5_attest_conservation 7 { bump := 1, authority := 7 }
      { user := gameKey, balance := 0 } { user := 2, balance := 5 }
      { user := 3, balance := 10 } 10 _ _ rfl).2.2.2.2⟩

/-! ## Claim C6 -/

/-- C6 (confirmed): a deposit whose vault transfer succeeds increases
the target account's balance by exactly the deposited amount and invokes
the vault-transfer collaborator exactly once, with exactly that amount,
from the user's vault to the game's vault; when the vault transfer fails
the whole transaction aborts and the ledger — the balance included — is
unchanged. -/
theorem c6_deposit_effect (acct : UserAccount) (amount : Nat) :
    (∀ acct2 ts, deposit acct amount true = .ok (acct2, ts) →
      acct2.balance = acct.balance + amount ∧
      ts = [{ amount := amount, source := .userVault,
              dest := .gameVault }]) ∧
    deposit acct amount false = .error .transferFailed ∧
    ∀ s addr, stepKeep s (.deposit addr amount false) = s := by
  refine ⟨?_, by simp [deposit], ?_⟩
  · intro acct2 ts h
    obtain ⟨-, -, hbal, -, hts⟩ := deposit_ok h
    exact ⟨hbal, hts⟩
  · intro s addr
    cases hl : lookupAcct s.accounts addr with
    | none => simp [stepKeep, step, hl]
    | some a => simp [stepKeep, step, hl, deposit]

/-- Witness for C6 at a concrete deposit of 50 onto balance 100. -/
theorem c6_deposit_effect_witness :
    deposit { user := 2, balance := 100 } 50 true =
      .ok ({ user := 2, balance := 150 },
        [{ amount := 50, source := .userVault, dest := .gameVault }]) ∧
    (({ user := 2, balance := 150 } : UserAccount).balance =
        ({ user := 2, balance := 100 } : UserAccount).balance + 50 ∧
      ([{ amount := 50, source := VaultRef.userVault,
          dest := VaultRef.gameVault }] : List TransferCall) =
        [{ amount := 50, source := VaultRef.userVault,
           dest := VaultRef.gameVault }]) ∧
    deposit { user := 2, balance := 100 } 50 false =
      .error .transferFailed ∧
    stepKeep init0 (.deposit 3 50 false) = init0 :=
  ⟨rfl, (c6_deposit_effect { user := 2, balance := 100 } 50).1 _ _ rfl,
    (c6_deposit_effect { user := 2, balance := 100 } 50).2.1,
    (c6_deposit_effect { user := 2, balance := 100 } 50).2.2 init0 3⟩

/-! ## Claim C7 -/

/-- C7 (confirmed): a withdraw of more than the targeted account's
balance fails with `InsufficientFunds` before the vault transfer is
attempted (the balance check is the handler's first statement), and the
whole transaction leaves the chain state — balance and vault included —
unchanged. -/
theorem c7_withdraw_insufficient (s : ChainState)
    (caller addr amount : Nat) (tOk : Bool) (g : Game)
    (acct : UserAccount)
    (hgame : s.game = some g)
    (hlook : lookupAcct s.accounts addr = some acct)
    (hlow : acct.balance < amount) :
    step s (.withdraw caller addr amount tOk) =
      .error (.custom .InsufficientFunds) ∧
    stepKeep s (.withdraw caller addr amount tOk) = s := by
  have h1 : step s (.withdraw caller addr amount tOk) =
      .error (.custom .InsufficientFunds) := by
    simp [step, hgame, hlook, withdraw, hlow]
  exact ⟨h1, by simp [stepKeep, h1]⟩

/-- Witness for C7: withdrawing 50 from an account holding 30 fails
with `InsufficientFunds` and changes nothing. -/
theorem c7_withdraw_insufficient_witness :
    step { game := some { bump := 1, authority := 7 },
           accounts := [(6, { user := 2, balance := 30 })], vault := 30 }
        (.withdraw 2 6 50 true) =
      .error (.custom .InsufficientFunds) ∧
    stepKeep { game := some { bump := 1, authority := 7 },
               accounts := [(6, { user := 2, balance := 30 })],
               vault := 30 }
        (.withdraw 2 6 50 true) =
      { game := some { bump := 1, authority := 7 },
        accounts := [(6, { user := 2, balance := 30 })], vault := 30 } :=
  c7_withdraw_insufficient _ 2 6 50 true { bump := 1, authority := 7 }
    { user := 2, balance := 30 } rfl rfl (by decide)

/-! ## Claim C8 -/

/-- C8 is false as stated: the handler computes
`balance.checked_add(amount).unwrap()`, so an overflowing deposit aborts
through a Rust panic (`unwrap` of `None`), not through the program's
`ArithmeticError` error code.  Concretely, depositing 1 onto a balance
of `u64::MAX` yields the panic abort, which is a different failure kind
from `CustomError::ArithmeticError`. -/
theorem c8_deposit_overflow_counterexample :
    deposit { user := 1, balance := U64_MAX } 1 true =
      .error .panicked ∧
    TxError.panicked ≠ .custom .ArithmeticError :=
  ⟨rfl, by decide⟩

/-- C8 (amended): a deposit with `balance + amount` above the unsigned
64-bit maximum fails — the checked addition returns `None` and the
`unwrap` panics, aborting the transaction, so there is never a silent
wrap or a clamp and the balance is unchanged — but the surfaced failure
is the runtime panic, not the `ArithmeticError` error kind. -/
theorem c8_deposit_overflow_aborts (acct : UserAccount) (amount : Nat)
    (hov : U64_MAX < acct.balance + amount) :
    deposit acct amount true = .error .panicked ∧
    ∀ s addr tOk, lookupAcct s.accounts addr = some acct →
      stepKeep s (.deposit addr amount tOk) = s := by
  have hnone : checked_add acct.balance amount = none := by
    simp [checked_add]
    omega
  refine ⟨by simp [deposit, hnone], ?_⟩
  intro s addr tOk hlook
  cases tOk with
  | false => simp [stepKeep, step, hlook, deposit]
  | true => simp [stepKeep, step, hlook, deposit, hnone]

/-- Witness for C8 (amended) at balance `u64::MAX`, amount 1. -/
theorem c8_deposit_overflow_aborts_witness :
    deposit { user := 1, balance := U64_MAX } 1 true =
      .error .panicked ∧
    stepKeep { game := none,
               accounts := [(3, { user := 1, balance := U64_MAX })],
               vault := 0 }
        (.deposit 3 1 true) =
      { game := none,
        accounts := [(3, { user := 1, balance := U64_MAX })],
        vault := 0 } :=
  ⟨(c8_deposit_overflow_aborts { user := 1, balance := U64_MAX } 1
      (by decide)).1,
    (c8_deposit_overflow_aborts { user := 1, balance := U64_MAX } 1
      (by decide)).2 _ 3 true rfl⟩

/-! ## Claim C9 -/

/-- C9 is false as stated: `CreateUserAccount` initializes a fresh
account at a caller-chosen address with no seeds tying the address to
the user identity, and the program defines no `AlreadyExists` error
kind at all (`CustomError` has only `InsufficientFunds`, `Unauthorized`
and `ArithmeticError`).  Concretely, identity 7 already has a record
(balance 5 at address 10), yet `create_user_account` at the fresh
address 11 succeeds, giving identity 7 a second record and leaving the
first untouched. -/
theorem c9_create_existing_counterexample :
    lookupAcct [(10, { user := 7, balance := 5 })] 10 =
      some { user := 7, balance := 5 } ∧
    step { game := some { bump := 1, authority := 7 },
           accounts := [(10, { user := 7, balance := 5 })], vault := 5 }
        (.createUserAccount 11 7) =
      .ok { game := some { bump := 1, authority := 7 },
            accounts := [(11, { user := 7, balance := 0 }),
                         (10, { user := 7, balance := 5 })],
            vault := 5 } :=
  ⟨rfl, rfl⟩

/-- C9 (amended): `create_user_account` fails only when the supplied
account address is already in use, and then with the framework's
account-already-initialized error (the program defines no
`AlreadyExists` kind); the failure leaves the ledger unchanged.  At a
fresh address the call succeeds with a zero balance even when the
identity already has another record, and every record at a different
address — any existing record for that identity included — is left
untouched. -/
theorem c9_create_user_account_amended (s : ChainState)
    (addr user : Pubkey) :
    (∀ a, lookupAcct s.accounts addr = some a →
      step s (.createUserAccount addr user) = .error .accountInUse ∧
      stepKeep s (.createUserAccount addr user) = s) ∧
    (lookupAcct s.accounts addr = none →
      step s (.createUserAccount addr user) =
        .ok { s with accounts :=
          (addr, { user := user, balance := 0 }) :: s.accounts } ∧
      ∀ addr2, addr2 ≠ addr →
        lookupAcct ((addr, { user := user, balance := 0 })
            :: s.accounts) addr2 =
          lookupAcct s.accounts addr2) := by
  constructor
  · intro a hl
    have h1 : step s (.createUserAccount addr user) =
        .error .accountInUse := by
      simp [step, hl]
    exact ⟨h1, by simp [stepKeep, h1]⟩
  · intro hl
    refine ⟨by simp [step, hl], ?_⟩
    intro addr2 hne
    exact lookupAcct_cons_ne _ hne

/-- Witness for C9 (amended): both branches at a concrete ledger —
re-using address 10 fails with the account-in-use error and changes
nothing; the fresh address 11 succeeds and leaves the record at 10
untouched. -/
theorem c9_create_user_account_amended_witness :
    (step { game := some { bump := 1, authority := 7 },
            accounts := [(10, { user := 7, balance := 5 })], vault := 5 }
        (.createUserAccount 10 7) = .error .accountInUse ∧
      stepKeep { game := some { bump := 1, authority := 7 },
                 accounts := [(10, { user := 7, balance := 5 })],
                 vault := 5 }
          (.createUserAccount 10 7) =
        { game := some { bump := 1, authority := 7 },
          accounts := [(10, { user := 7, balance := 5 })],
          vault := 5 }) ∧
    lookupAcct [(11, { user := 7, balance := 0 }),
        (10, { user := 7, balance := 5 })] 10 =
      lookupAcct [(10, { user := 7, balance := 5 })] 10 :=
  ⟨(c9_create_user_account_amended
      { game := some { bump := 1, authority := 7 },
        accounts := [(10, { user := 7, balance := 5 })], vault := 5 }
      10 7).1 { user := 7, balance := 5 } rfl,
    (c9_create_user_account_amended
      { game := some { bump := 1, authority := 7 },
        accounts := [(10, { user := 7, balance := 5 })], vault := 5 }
      11 7).2 rfl |>.2 10 (by decide)⟩

/-! ## Claim C10 -/

/-- C10 (confirmed): `attest_outcome` performs no vault transfer (the
`AttestOutcome` struct names no token accounts and the handler does no
CPI, so the committed transfer list is empty and the ledger's vault
amount is unchanged), and the only fields it changes are the balances of
the game operating account and, when present, the winner and loser
accounts: the `Game` record — bump and authority — and every owner
field are exactly as before. -/
theorem c10_attest_frame (caller : Pubkey) (stake : Nat) :
    (∀ accs res ts,
      attest_outcome caller accs stake = .ok (res, ts) →
      ts = [] ∧ res.game = accs.game ∧
      res.game_user_account.user = accs.game_user_account.user ∧
      Option.map UserAccount.user res.winner_account =
        Option.map UserAccount.user accs.winner_account ∧
      Option.map UserAccount.user res.loser_account =
        Option.map UserAccount.user accs.loser_account) ∧
    ∀ s guAddr winnerAddr loserAddr s2,
      step s (.attestOutcome caller guAddr stake winnerAddr loserAddr)
        = .ok s2 →
      s2.vault = s.vault ∧ s2.game = s.game := by
  constructor
  · intro accs res ts h
    obtain ⟨hts, -, hgame, -, hgu2, hcw, hdl⟩ := attest_outcome_ok h
    refine ⟨hts, hgame, by rw [hgu2], ?_, ?_⟩
    · rcases creditWinner_ok hcw with ⟨hw, hres_w⟩ |
        ⟨a, ha, -, hres_w⟩
      · rw [hres_w, hw]
      · rw [hres_w, ha]
        simp
    · rcases debitLoser_ok hdl with ⟨hl, hres_l⟩ |
        ⟨a, ha, -, hres_l⟩
      · rw [hres_l, hl]
      · rw [hres_l, ha]
        simp
  · intro s guAddr winnerAddr loserAddr s2 hstep
    simp only [step] at hstep
    split at hstep
    · simp at hstep
    · split at hstep
      · simp at hstep
      · split at hstep
        · simp at hstep
        · split at hstep
          · simp at hstep
          · split at hstep
            · split at hstep
              · simp at hstep
              · simp at hstep
                subst hstep
                exact ⟨rfl, rfl⟩
            · simp at hstep

/-- Witness for C10 at a concrete successful settlement, on both the
handler (empty transfer list, game and owners unchanged) and the ledger
(vault and game unchanged). -/
theorem c10_attest_frame_witness :
    (([] : List TransferCall) = [] ∧
      ({ bump := 1, authority := 7 } : Game) =
        { bump := 1, authority := 7 } ∧
      gameKey = gameKey ∧
      Option.map UserAccount.user
          (some { user := 2, balance := 14 }) =
        Option.map UserAccount.user (some { user := 2, balance := 5 }) ∧
      Option.map UserAccount.user (some { user := 3, balance := 0 }) =
        Option.map UserAccount.user
          (some { user := 3, balance := 10 })) ∧
    ((3 : Nat) = 3 ∧
      (some { bump := 1, authority := 7 } : Option Game) =
        some { bump := 1, authority := 7 }) :=
  ⟨(c10_attest_frame 7 10).1
      { game := { bump := 1, authority := 7 },
        game_user_account := { user := gameKey, balance := 0 },
        winner_account := some { user := 2, balance := 5 },
        loser_account := some { user := 3, balance := 10 } }
      { game := { bump := 1, authority := 7 },
        game_user_account := { user := gameKey, balance := 1 },
        winner_account := some { user := 2, balance := 14 },
        loser_account := some { user := 3, balance := 0 } }
      [] rfl,
    (c10_attest_frame 7 10).2
      { game := some { bump := 1, authority := 7 },
        accounts := [(5, { user := gameKey, balance := 0 }),
                     (6, { user := 2, balance := 5 }),
                     (8, { user := 3, balance := 10 })],
        vault := 3 }
      5 (some 6) (some 8) _ rfl⟩

end Turing
